import Mathlib

/-
Verification of the dice-notation core of the dungeonbot chat bot
(src/plugins.py, class RollPlugin).  The Python code is shallowly
embedded: the global randomness source is a function from draw indices
to values together with an index counter, the user-identity resolver is
a fixed display name together with an invocation counter, and every
Python exception (ValueError from int(), from tuple unpacking, or from
random.randint) becomes an Except.error.  All string work is done on
the underlying character lists, mirroring the semantics of the Python
string methods used by the code: split, join, replace and the in
operator.
-/

set_option autoImplicit false

namespace DungeonBot

/-- Observable side-effect state of one command invocation: the index of
the next value to be taken from the process-wide randomness source, and
the number of calls made so far to the user-identity resolver
(bot.get_user_from_id). -/
structure BotState where
  nextDraw : Nat
  resolverCalls : Nat
  deriving DecidableEq

/-- Python str.split with a one-character separator: cut the character
list at every occurrence of the separator, keeping empty pieces. -/
def splitChar (sep : Char) : List Char → List (List Char)
  | [] => [[]]
  | c :: cs =>
    if c = sep then
      [] :: splitChar sep cs
    else
      match splitChar sep cs with
      | [] => [[c]]
      | g :: gs => (c :: g) :: gs

/-- Python str.split with a general separator, fuelled: scan left to
right, cutting at each non-overlapping occurrence of the separator and
keeping empty pieces.  The fuel only bounds the recursion; with fuel at
least the length of the input the out-of-fuel case is never reached. -/
def splitGo (sep : List Char) : Nat → List Char → List (List Char)
  | _, [] => [[]]
  | 0, l => [l]
  | fuel + 1, c :: cs =>
    if sep.isPrefixOf (c :: cs) then
      [] :: splitGo sep fuel (List.drop (sep.length - 1) cs)
    else
      match splitGo sep fuel cs with
      | [] => [[c]]
      | g :: gs => (c :: g) :: gs

/-- Python roll_str.split(sep) for a one-character separator sep. -/
def pySplitC (sep : Char) (s : String) : List String :=
  (splitChar sep s.data).map (fun l => String.mk l)

/-- Python args.split(sep) for an arbitrary separator string sep. -/
def pySplitS (sep : String) (s : String) : List String :=
  (splitGo sep.data s.data.length s.data).map (fun l => String.mk l)

/-- Python sep.join(pieces). -/
def pyJoin (sep : String) : List String → String
  | [] => ""
  | [x] => x
  | x :: y :: xs => x ++ sep ++ pyJoin sep (y :: xs)

/-- Python arg_string.replace(space, empty): delete every space. -/
def removeSpaces (s : String) : String :=
  String.mk (s.data.filter (fun c => c != ' '))

/-- Decimal value of a list of digit characters. -/
def digitsVal (l : List Char) : Nat :=
  l.foldl (fun a c => a * 10 + (c.toNat - 48)) 0

/-- True when the list is a non-empty run of decimal digits. -/
def isDigits (l : List Char) : Bool :=
  !l.isEmpty && l.all (fun c => c.isDigit)

/-- Python int() applied to a string: an optional single sign followed
by a non-empty run of decimal digits; anything else raises ValueError,
modelled as Except.error. -/
def pyInt (s : String) : Except String Int :=
  match s.data with
  | '+' :: rest =>
    if isDigits rest then .ok ((digitsVal rest : Nat) : Int)
    else .error "ValueError: invalid literal for int"
  | '-' :: rest =>
    if isDigits rest then .ok (-((digitsVal rest : Nat) : Int))
    else .error "ValueError: invalid literal for int"
  | l =>
    if isDigits l then .ok ((digitsVal l : Nat) : Int)
    else .error "ValueError: invalid literal for int"

/-- The parsing portion of RollPlugin roll_func (src/plugins.py,
lines 49 to 67): detect a modifier by looking for a literal plus or
minus anywhere in the clause, split there into dice part and modifier
magnitude, then split the dice part at the letter d and convert the
three tokens with int().  Returns (operator, modifier, number, sides).
Every ValueError raised by the Python code (failed tuple unpacking or
failed int conversion) is an Except.error, raised in the same order as
in the Python code. -/
def parseClause (roll_str : String) : Except String (String × Int × Int × Int) :=
  let step1 : Except String (String × String × Except String Int) :=
    if roll_str.data.contains '+' then
      match pySplitC '+' roll_str with
      | [r, m] => .ok (r, "+", pyInt m)
      | _ => .error "ValueError: values to unpack mismatch"
    else if roll_str.data.contains '-' then
      match pySplitC '-' roll_str with
      | [r, m] => .ok (r, "-", pyInt m)
      | _ => .error "ValueError: values to unpack mismatch"
    else
      .ok (roll_str, "+", .ok 0)
  match step1 with
  | .error e => .error e
  | .ok (roll, operator, modifierRes) =>
    match pySplitC 'd' roll with
    | [numberStr, sidesStr] =>
      match modifierRes with
      | .error e => .error e
      | .ok modifier =>
        match pyInt numberStr with
        | .error e => .error e
        | .ok number =>
          match pyInt sidesStr with
          | .error e => .error e
          | .ok sides => .ok (operator, modifier, number, sides)
    | _ => .error "ValueError: values to unpack mismatch"

/-- Line 79 of src/plugins.py: mod_result is the modifier when the
operator is plus and its negation otherwise. -/
def mod_result (operator : String) (modifier : Int) : Int :=
  if operator = "+" then modifier else modifier * -1

/-- The rolling loop of roll_func (lines 72 to 75): count iterations,
each drawing random.randint(1, sides) from the randomness source and
accumulating roll_result, min_roll and max_roll.  randint raises
ValueError when the range [1, sides] is empty, before consuming any
entropy.  The accumulators start at 0 in roll_func. -/
def rollLoop (g : Nat → Int) (sides : Int) :
    Nat → Int → Int → Int → BotState → Except String (Int × Int × Int) × BotState
  | 0, rr, mn, mx, s => (.ok (rr, mn, mx), s)
  | n + 1, rr, mn, mx, s =>
    if 1 ≤ sides then
      rollLoop g sides n (rr + g s.nextDraw) (mn + 1) (mx + sides)
        ⟨s.nextDraw + 1, s.resolverCalls⟩
    else
      (.error "ValueError: empty range for randrange", s)

/-- Everything of the single-roll message after the requester name: the
second part of the format string on lines 89 to 96 of src/plugins.py. -/
def message_tail (result : Int) (roll_str roll_plus_mods : String) (mn mx : Int) : String :=
  "* *rolls a " ++ toString result ++ "* _(" ++ roll_str ++ " = " ++
    roll_plus_mods ++ ")_ _(min: " ++ toString mn ++ ", max: " ++ toString mx ++ ")_"

/-- The full single-roll message format of lines 89 to 96. -/
def single_message (event_user_name : String) (result : Int)
    (roll_str roll_plus_mods : String) (mn mx : Int) : String :=
  "*" ++ event_user_name ++ message_tail result roll_str roll_plus_mods mn mx

/-- RollPlugin roll_func (src/plugins.py lines 49 to 97): parse the
clause, run the rolling loop, call the user-identity resolver once, and
format the single-roll message.  The display name returned by the
resolver is the userName argument; each call to the resolver bumps
resolverCalls.  On an exception the state reached so far is kept, since
the Python randomness source is process-wide. -/
def roll_func (g : Nat → Int) (userName : String) (roll_str : String) (s : BotState) :
    Except String String × BotState :=
  match parseClause roll_str with
  | .error e => (.error e, s)
  | .ok (operator, modifier, number, sides) =>
    match rollLoop g sides number.toNat 0 0 0 s with
    | (.error e, s₁) => (.error e, s₁)
    | (.ok (roll_result, min_roll, max_roll), s₁) =>
      let roll_plus_mods := toString roll_result ++ " " ++ operator ++ " " ++ toString modifier
      let mr := mod_result operator modifier
      let result := roll_result + mr
      let s₂ : BotState := ⟨s₁.nextDraw, s₁.resolverCalls + 1⟩
      (.ok (single_message userName result roll_str roll_plus_mods (min_roll + mr) (max_roll + mr)), s₂)

/-- Line 41 of src/plugins.py, inner expression: drop the first
space-separated token of a single-roll message, Python
space.join(msg.split(space)[1:]). -/
def dropFirstToken (msg : String) : String :=
  pyJoin " " ((pySplitC ' ' msg).drop 1)

/-- The list comprehension on line 41 of src/plugins.py: evaluate each
clause in order with roll_func and keep its message minus the first
token.  The first exception aborts the remaining clauses but keeps the
side effects already performed. -/
def mapRolls (g : Nat → Int) (userName : String) :
    List String → BotState → Except String (List String) × BotState
  | [], s => (.ok [], s)
  | c :: cs, s =>
    match roll_func g userName c s with
    | (.error e, s₁) => (.error e, s₁)
    | (.ok msg, s₁) =>
      match mapRolls g userName cs s₁ with
      | (.error e, s₂) => (.error e, s₂)
      | (.ok rest, s₂) => (.ok (dropFirstToken msg :: rest), s₂)

/-- RollPlugin run (src/plugins.py lines 34 to 47): remove spaces from
the argument string, split on the literal separator and, and either
evaluate the single clause directly or evaluate every clause, resolve
the requester name once more, and join the fragments.  The produced
string is the one handed to bot.make_post. -/
def run (g : Nat → Int) (userName : String) (arg_string : String) (s : BotState) :
    Except String String × BotState :=
  let args := removeSpaces arg_string
  if (pySplitS "and" args).length > 1 then
    match mapRolls g userName (pySplitS "and" args) s with
    | (.error e, s₁) => (.error e, s₁)
    | (.ok all_rolls, s₁) =>
      let s₂ : BotState := ⟨s₁.nextDraw, s₁.resolverCalls + 1⟩
      (.ok ("*" ++ userName ++ "* " ++ pyJoin "\n\t and " all_rolls), s₂)
  else
    roll_func g userName args s

/-- A fixed randomness source whose every draw is 1; used for concrete
witnesses (every draw lies in [1, sides] for any sides at least 1). -/
def g0 : Nat → Int := fun _ => 1

/-- Sum of the draws taken from the source at indices start, start + 1,
..., start + n - 1; the value accumulated into roll_result by the
rolling loop. -/
def rangeSum (g : Nat → Int) (start : Nat) : Nat → Int
  | 0 => 0
  | n + 1 => g start + rangeSum g (start + 1) n

theorem mk_append (a b : List Char) :
    String.mk a ++ String.mk b = String.mk (a ++ b) := rfl

theorem splitChar_ne_nil (sep : Char) (l : List Char) : splitChar sep l ≠ [] := by
  cases l with
  | nil => simp [splitChar]
  | cons c cs =>
    simp only [splitChar]
    split
    · simp
    · cases h : splitChar sep cs <;> simp

theorem splitChar_sep_cons (sep : Char) (w t : List Char) (hw : w.contains sep = false) :
    splitChar sep (w ++ sep :: t) = w :: splitChar sep t := by
  induction w with
  | nil => simp [splitChar]
  | cons a w ih =>
    simp only [List.contains_cons, Bool.or_eq_false_iff] at hw
    have ha2 : ¬ a = sep := by
      intro hEq
      subst hEq
      simp at hw
    simp only [List.cons_append, splitChar, if_neg ha2, List.append_eq]
    rw [ih hw.2]

theorem pyJoin_splitChar (t : List Char) :
    pyJoin " " ((splitChar ' ' t).map String.mk) = String.mk t := by
  induction t with
  | nil => simp [splitChar, pyJoin]
  | cons c cs ih =>
    by_cases hc : c = ' '
    · subst hc
      simp only [splitChar, if_pos rfl]
      cases h : splitChar ' ' cs with
      | nil => exact absurd h (splitChar_ne_nil ' ' cs)
      | cons y ys =>
        rw [h] at ih
        simp only [List.map_cons, pyJoin] at ih ⊢
        rw [ih]
        rw [show (" " : String) = String.mk [' '] from rfl, mk_append, mk_append]
        simp
    · simp only [splitChar, if_neg hc]
      cases h : splitChar ' ' cs with
      | nil => exact absurd h (splitChar_ne_nil ' ' cs)
      | cons y ys =>
        rw [h] at ih
        cases ys with
        | nil =>
          simp only [List.map_cons, List.map_nil, pyJoin] at ih ⊢
          rw [show String.mk (c :: y) = String.mk [c] ++ String.mk y from rfl, ih]
          rfl
        | cons z zs =>
          simp only [List.map_cons, pyJoin] at ih ⊢
          rw [show String.mk (c :: y) = String.mk [c] ++ String.mk y from rfl]
          rw [show String.mk [c] ++ String.mk y ++ " " ++ pyJoin " " (String.mk z :: zs.map String.mk)
              = String.mk [c] ++ (String.mk y ++ " " ++ pyJoin " " (String.mk z :: zs.map String.mk)) from rfl]
          rw [ih]
          rfl

theorem dropFirstToken_sep (a b : String) (ha : a.data.contains ' ' = false) :
    dropFirstToken (a ++ " " ++ b) = b := by
  obtain ⟨la⟩ := a
  obtain ⟨lb⟩ := b
  have hab : (String.mk la ++ " " ++ String.mk lb) = String.mk (la ++ ' ' :: lb) := by
    rw [show (" " : String) = String.mk [' '] from rfl, mk_append, mk_append]
    simp
  rw [hab]
  simp only [dropFirstToken, pySplitC]
  rw [splitChar_sep_cons ' ' la lb ha]
  simp only [List.map_cons, List.drop_succ_cons, List.drop_zero]
  exact pyJoin_splitChar lb

theorem splitGo_ne_nil (sep : List Char) (fuel : Nat) (l : List Char) :
    splitGo sep fuel l ≠ [] := by
  cases l with
  | nil => cases fuel <;> simp [splitGo]
  | cons c cs =>
    cases fuel with
    | zero => simp [splitGo]
    | succ n =>
      simp only [splitGo]
      split
      · simp
      · cases h : splitGo sep n cs <;> simp

theorem splitGo_single (sep : List Char) :
    ∀ (fuel : Nat) (l x : List Char), splitGo sep fuel l = [x] → x = l := by
  intro fuel
  induction fuel with
  | zero =>
    intro l x h
    cases l with
    | nil =>
      have h2 : ([[]] : List (List Char)) = [x] := h
      simpa using h2.symm
    | cons c cs =>
      have h2 : [c :: cs] = [x] := h
      simpa using h2.symm
  | succ n ih =>
    intro l x h
    cases l with
    | nil =>
      have h2 : ([[]] : List (List Char)) = [x] := h
      simpa using h2.symm
    | cons c cs =>
      simp only [splitGo] at h
      by_cases hp : sep.isPrefixOf (c :: cs)
      · rw [if_pos hp] at h
        have : splitGo sep n (List.drop (sep.length - 1) cs) = [] := by
          simpa using congrArg List.tail h
        exact absurd this (splitGo_ne_nil sep n _)
      · rw [if_neg hp] at h
        cases hm : splitGo sep n cs with
        | nil => exact absurd hm (splitGo_ne_nil sep n cs)
        | cons y ys =>
          rw [hm] at h
          have hys : ys = [] := by simpa using congrArg List.tail h
          have hx : x = c :: y := by
            have := congrArg List.head? h
            simpa using this.symm
          subst hys
          have := ih cs y hm
          subst this
          exact hx

theorem mk_data (s : String) : String.mk s.data = s := rfl

theorem pySplitS_single (sep s x : String) (h : pySplitS sep s = [x]) : x = s := by
  simp only [pySplitS] at h
  cases hm : splitGo sep.data s.data.length s.data with
  | nil => exact absurd hm (splitGo_ne_nil _ _ _)
  | cons y ys =>
    rw [hm] at h
    cases ys with
    | nil =>
      simp only [List.map_cons, List.map_nil, List.cons.injEq, and_true] at h
      have hy : y = s.data := splitGo_single sep.data _ _ y hm
      rw [← h, hy, mk_data]
    | cons z zs => simp at h

theorem mem_of_short (c : String) (L : List String) (hlen : ¬ L.length > 1)
    (hc : c ∈ L) : L = [c] := by
  cases L with
  | nil => simp at hc
  | cons a r =>
    cases r with
    | nil =>
      simp only [List.mem_singleton] at hc
      rw [hc]
    | cons b r2 => simp at hlen

theorem rollLoop_ok (g : Nat → Int) (sides : Int) (hs : 1 ≤ sides) :
    ∀ (cnt : Nat) (rr mn mx : Int) (s : BotState),
      rollLoop g sides cnt rr mn mx s =
        (.ok (rr + rangeSum g s.nextDraw cnt, mn + cnt, mx + cnt * sides),
         ⟨s.nextDraw + cnt, s.resolverCalls⟩) := by
  intro cnt
  induction cnt with
  | zero =>
    intro rr mn mx s
    simp [rollLoop, rangeSum]
  | succ n ih =>
    intro rr mn mx s
    simp only [rollLoop, if_pos hs]
    rw [ih (rr + g s.nextDraw) (mn + 1) (mx + sides) ⟨s.nextDraw + 1, s.resolverCalls⟩]
    refine Prod.ext (congrArg Except.ok ?_) ?_
    · refine Prod.ext ?_ (Prod.ext ?_ ?_)
      · simp only [rangeSum]
        ring
      · show mn + 1 + (n : Int) = mn + ((n : Nat) + 1 : Nat)
        push_cast
        ring
      · show mx + sides + (n : Int) * sides = mx + (((n : Nat) + 1 : Nat) : Int) * sides
        push_cast
        ring
    · show (⟨s.nextDraw + 1 + n, s.resolverCalls⟩ : BotState)
        = ⟨s.nextDraw + (n + 1), s.resolverCalls⟩
      have hnd : s.nextDraw + 1 + n = s.nextDraw + (n + 1) := by omega
      rw [hnd]

theorem rollLoop_inv (g : Nat → Int) (sides : Int) :
    ∀ (cnt : Nat) (rr0 mn0 mx0 : Int) (s : BotState) (rr mn mx : Int) (s' : BotState),
      rollLoop g sides cnt rr0 mn0 mx0 s = (.ok (rr, mn, mx), s') →
      rr = rr0 + rangeSum g s.nextDraw cnt ∧ mn = mn0 + cnt ∧ mx = mx0 + cnt * sides ∧
        s' = ⟨s.nextDraw + cnt, s.resolverCalls⟩ := by
  intro cnt
  induction cnt with
  | zero =>
    intro rr0 mn0 mx0 s rr mn mx s' h
    have h2 : ((.ok (rr0, mn0, mx0), s) : Except String (Int × Int × Int) × BotState)
        = (.ok (rr, mn, mx), s') := h
    simp only [Prod.mk.injEq, Except.ok.injEq] at h2
    obtain ⟨⟨h3, h4, h5⟩, h6⟩ := h2
    refine ⟨by simp [← h3, rangeSum], by simp [← h4], by simp [← h5], by simp [← h6]⟩
  | succ n ih =>
    intro rr0 mn0 mx0 s rr mn mx s' h
    by_cases hs : 1 ≤ sides
    · simp only [rollLoop, if_pos hs] at h
      obtain ⟨h3, h4, h5, h6⟩ :=
        ih (rr0 + g s.nextDraw) (mn0 + 1) (mx0 + sides) ⟨s.nextDraw + 1, s.resolverCalls⟩
          rr mn mx s' h
      refine ⟨?_, ?_, ?_, ?_⟩
      · rw [h3]
        simp only [rangeSum]
        ring
      · rw [h4]
        push_cast
        ring
      · rw [h5]
        push_cast
        ring
      · rw [h6]
        show (⟨s.nextDraw + 1 + n, s.resolverCalls⟩ : BotState)
          = ⟨s.nextDraw + (n + 1), s.resolverCalls⟩
        have hnd : s.nextDraw + 1 + n = s.nextDraw + (n + 1) := by omega
        rw [hnd]
    · simp only [rollLoop, if_neg hs] at h
      exact absurd (congrArg Prod.fst h) (by simp)

theorem rangeSum_bounds (g : Nat → Int) (sides : Int)
    (hg : ∀ k, 1 ≤ g k ∧ g k ≤ sides) :
    ∀ (cnt start : Nat),
      (cnt : Int) ≤ rangeSum g start cnt ∧ rangeSum g start cnt ≤ (cnt : Int) * sides := by
  intro cnt
  induction cnt with
  | zero => intro start; simp [rangeSum]
  | succ n ih =>
    intro start
    obtain ⟨ih1, ih2⟩ := ih (start + 1)
    constructor
    · have := (hg start).1
      simp only [rangeSum]
      push_cast
      omega
    · have := (hg start).2
      simp only [rangeSum]
      have h2 : rangeSum g (start + 1) n + g start ≤ (n : Int) * sides + sides :=
        add_le_add ih2 this
      push_cast
      nlinarith [h2]

theorem roll_func_ok (g : Nat → Int) (u c : String) (s s₁ : BotState) (op : String)
    (m n sd rr mn mx : Int)
    (hp : parseClause c = .ok (op, m, n, sd))
    (hr : rollLoop g sd n.toNat 0 0 0 s = (.ok (rr, mn, mx), s₁)) :
    roll_func g u c s =
      (.ok (single_message u (rr + mod_result op m) c
        (toString rr ++ " " ++ op ++ " " ++ toString m)
        (mn + mod_result op m) (mx + mod_result op m)),
       ⟨s₁.nextDraw, s₁.resolverCalls + 1⟩) := by
  simp only [roll_func, hp, hr]

theorem roll_func_inv (g : Nat → Int) (u c : String) (s : BotState) (msg : String)
    (s' : BotState) (h : roll_func g u c s = (.ok msg, s')) :
    ∃ op m n sd rr mn mx s₁,
      parseClause c = .ok (op, m, n, sd) ∧
      rollLoop g sd n.toNat 0 0 0 s = (.ok (rr, mn, mx), s₁) ∧
      s' = ⟨s₁.nextDraw, s₁.resolverCalls + 1⟩ ∧
      msg = single_message u (rr + mod_result op m) c
        (toString rr ++ " " ++ op ++ " " ++ toString m)
        (mn + mod_result op m) (mx + mod_result op m) := by
  cases hp : parseClause c with
  | error e =>
    simp only [roll_func, hp] at h
    exact absurd (congrArg Prod.fst h) (by simp)
  | ok v =>
    obtain ⟨op, m, n, sd⟩ := v
    cases hr : rollLoop g sd n.toNat 0 0 0 s with
    | mk res s₁ =>
      cases res with
      | error e =>
        simp only [roll_func, hp, hr] at h
        exact absurd (congrArg Prod.fst h) (by simp)
      | ok triple =>
        obtain ⟨rr, mn, mx⟩ := triple
        simp only [roll_func, hp, hr] at h
        simp only [Prod.mk.injEq, Except.ok.injEq] at h
        exact ⟨op, m, n, sd, rr, mn, mx, s₁, rfl, hr, h.2.symm, h.1.symm⟩

theorem roll_func_resolver (g : Nat → Int) (u c : String) (s : BotState) (msg : String)
    (s' : BotState) (h : roll_func g u c s = (.ok msg, s')) :
    s'.resolverCalls = s.resolverCalls + 1 ∧ (parseClause c).isOk = true := by
  obtain ⟨op, m, n, sd, rr, mn, mx, s₁, hp, hr, hs', -⟩ := roll_func_inv g u c s msg s' h
  obtain ⟨-, -, -, h6⟩ := rollLoop_inv g sd n.toNat 0 0 0 s rr mn mx s₁ hr
  constructor
  · rw [hs', h6]
  · rw [hp]; rfl

theorem mapRolls_ok (g : Nat → Int) (u : String) :
    ∀ (cs : List String) (s : BotState) (l : List String) (s' : BotState),
      mapRolls g u cs s = (.ok l, s') →
      l.length = cs.length ∧ s'.resolverCalls = s.resolverCalls + cs.length ∧
        ∀ c ∈ cs, (parseClause c).isOk = true := by
  intro cs
  induction cs with
  | nil =>
    intro s l s' h
    have h2 : ((.ok [], s) : Except String (List String) × BotState) = (.ok l, s') := h
    simp only [Prod.mk.injEq, Except.ok.injEq] at h2
    refine ⟨by simp [← h2.1], by simp [← h2.2], by simp⟩
  | cons c cs ih =>
    intro s l s' h
    cases h1 : roll_func g u c s with
    | mk res s₁ =>
      cases res with
      | error e =>
        simp only [mapRolls, h1] at h
        exact absurd (congrArg Prod.fst h) (by simp)
      | ok msg =>
        cases h2 : mapRolls g u cs s₁ with
        | mk res2 s₂ =>
          cases res2 with
          | error e =>
            simp only [mapRolls, h1, h2] at h
            exact absurd (congrArg Prod.fst h) (by simp)
          | ok rest =>
            simp only [mapRolls, h1, h2] at h
            simp only [Prod.mk.injEq, Except.ok.injEq] at h
            obtain ⟨hl, hs'⟩ := h
            obtain ⟨ihl, ihres, ihparse⟩ := ih s₁ rest s₂ h2
            obtain ⟨hres1, hparse1⟩ := roll_func_resolver g u c s msg s₁ h1
            refine ⟨?_, ?_, ?_⟩
            · rw [← hl]; simp [ihl]
            · rw [← hs', ihres, hres1]
              simp only [List.length_cons]
              omega
            · intro x hx
              rcases List.mem_cons.mp hx with hx1 | hx2
              · rw [hx1]; exact hparse1
              · exact ihparse x hx2

theorem str_append_assoc (a b c : String) : a ++ b ++ c = a ++ (b ++ c) := by
  obtain ⟨la⟩ := a
  obtain ⟨lb⟩ := b
  obtain ⟨lc⟩ := c
  simp only [mk_append]
  rw [List.append_assoc]

theorem dropFirstToken_single_message (w u' roll_str roll_plus_mods : String)
    (result mn mx : Int) (hw : w.data.contains ' ' = false) :
    dropFirstToken (single_message (w ++ " " ++ u') result roll_str roll_plus_mods mn mx) =
      u' ++ message_tail result roll_str roll_plus_mods mn mx := by
  have heq : single_message (w ++ " " ++ u') result roll_str roll_plus_mods mn mx
      = ("*" ++ w) ++ " " ++ (u' ++ message_tail result roll_str roll_plus_mods mn mx) := by
    simp only [single_message, str_append_assoc]
  rw [heq]
  apply dropFirstToken_sep
  have hdata : ("*" ++ w).data = '*' :: w.data := rfl
  rw [hdata]
  simpa using hw

/-- C1: for every roll expression with count at least 1 and sides at
least 1, and every sequence of draws each lying in [1, sides], the
resulting outcome satisfies min_possible, that is min_roll plus
mod_result, at most modified_total, that is roll_result plus
mod_result, at most max_possible, that is max_roll plus mod_result. -/
theorem C1_bounds (g : Nat → Int) (count : Nat) (sides modifier : Int) (operator : String)
    (s s' : BotState) (rr mn mx : Int)
    (_hcount : 1 ≤ count) (_hsides : 1 ≤ sides)
    (hg : ∀ k, 1 ≤ g k ∧ g k ≤ sides)
    (h : rollLoop g sides count 0 0 0 s = (.ok (rr, mn, mx), s')) :
    mn + mod_result operator modifier ≤ rr + mod_result operator modifier ∧
      rr + mod_result operator modifier ≤ mx + mod_result operator modifier := by
  obtain ⟨h3, h4, h5, -⟩ := rollLoop_inv g sides count 0 0 0 s rr mn mx s' h
  obtain ⟨hb1, hb2⟩ := rangeSum_bounds g sides hg count s.nextDraw
  constructor
  · apply add_le_add_right
    rw [h3, h4]
    simpa using hb1
  · apply add_le_add_right
    rw [h3, h5]
    simpa using hb2

/-- Witness for C1 at the expression 2d6+3 with every draw equal to 1. -/
theorem C1_witness :
    (2 : Int) + mod_result "+" 3 ≤ 2 + mod_result "+" 3 ∧
      (2 : Int) + mod_result "+" 3 ≤ 12 + mod_result "+" 3 :=
  C1_bounds g0 2 6 3 "+" ⟨0, 0⟩ ⟨2, 0⟩ 2 2 12 (by decide) (by decide)
    (fun _ => ⟨le_refl 1, (by norm_num : (1 : Int) ≤ 6)⟩) rfl

/-- C2 counterexample: the clause -2d6+1 parses successfully with count
-2 and evaluates successfully with zero draws, yet the displayed
min_possible is 1 while count times 1 plus the signed modifier is -1,
so the claimed equation min_possible equals count plus signed modifier
fails on a successfully parsed and evaluated clause. -/
theorem C2_counterexample :
    parseClause "-2d6+1" = .ok ("+", 1, -2, 6) ∧
    roll_func g0 "u" "-2d6+1" ⟨0, 0⟩ =
      (.ok "*u* *rolls a 1* _(-2d6+1 = 0 + 1)_ _(min: 1, max: 1)_", ⟨0, 1⟩) ∧
    ¬ ((1 : Int) = -2 * 1 + 1) :=
  ⟨rfl, rfl, by decide⟩

/-- C2 as amended: for every successfully parsed and evaluated clause
whose parsed count is nonnegative, the evaluator posts modified_total
equal to raw_sum plus the signed modifier, and the computed bounds
satisfy min_roll equal to count times 1 and max_roll equal to count
times sides, so min_possible and max_possible are those plus the signed
modifier. -/
theorem C2_evaluator (g : Nat → Int) (u c : String) (s s₁ : BotState) (op : String)
    (m n sd rr mn mx : Int)
    (hp : parseClause c = .ok (op, m, n, sd)) (hn : 0 ≤ n)
    (hr : rollLoop g sd n.toNat 0 0 0 s = (.ok (rr, mn, mx), s₁)) :
    roll_func g u c s =
      (.ok (single_message u (rr + mod_result op m) c
        (toString rr ++ " " ++ op ++ " " ++ toString m)
        (mn + mod_result op m) (mx + mod_result op m)),
       ⟨s₁.nextDraw, s₁.resolverCalls + 1⟩) ∧
    mn = n * 1 ∧ mx = n * sd := by
  refine ⟨roll_func_ok g u c s s₁ op m n sd rr mn mx hp hr, ?_, ?_⟩
  · obtain ⟨-, h4, -, -⟩ := rollLoop_inv g sd n.toNat 0 0 0 s rr mn mx s₁ hr
    rw [h4, Int.toNat_of_nonneg hn]
    ring
  · obtain ⟨-, -, h5, -⟩ := rollLoop_inv g sd n.toNat 0 0 0 s rr mn mx s₁ hr
    rw [h5, Int.toNat_of_nonneg hn]
    ring

/-- Witness for the amended C2 at the clause 2d6+3 with every draw 1. -/
theorem C2_witness :
    roll_func g0 "u" "2d6+3" ⟨0, 0⟩ =
      (.ok (single_message "u" ((2 : Int) + mod_result "+" 3) "2d6+3"
        (toString (2 : Int) ++ " " ++ "+" ++ " " ++ toString (3 : Int))
        ((2 : Int) + mod_result "+" 3) ((12 : Int) + mod_result "+" 3)),
       ⟨2, 1⟩) ∧
    (2 : Int) = 2 * 1 ∧ (12 : Int) = 2 * 6 :=
  C2_evaluator g0 "u" "2d6+3" ⟨0, 0⟩ ⟨2, 0⟩ "+" 3 2 6 2 2 12 rfl (by decide) rfl

/-- C3 counterexample: the clause 0d6, whose count is 0, is not
rejected: it parses successfully and even evaluates successfully,
contradicting the claim that count at most 0 fails at parse time. -/
theorem C3_counterexample :
    parseClause "0d6" = .ok ("+", 0, 0, 6) ∧
    (roll_func g0 "u" "0d6" ⟨0, 0⟩).1 =
      .ok "*u* *rolls a 0* _(0d6 = 0 + 0)_ _(min: 0, max: 0)_" :=
  ⟨rfl, rfl⟩

/-- C3 as amended: clauses with nonpositive count or sides are not
rejected at parse time; 0d6 parses to count 0 and evaluates with zero
draws to total 0, while 1d0 parses to sides 0 and fails only during
evaluation, when the empty-range random draw raises. -/
theorem C3_not_rejected :
    parseClause "0d6" = .ok ("+", 0, 0, 6) ∧
    roll_func g0 "u" "0d6" ⟨0, 0⟩ =
      (.ok "*u* *rolls a 0* _(0d6 = 0 + 0)_ _(min: 0, max: 0)_", ⟨0, 1⟩) ∧
    parseClause "1d0" = .ok ("+", 0, 1, 0) ∧
    roll_func g0 "u" "1d0" ⟨0, 0⟩ =
      (.error "ValueError: empty range for randrange", ⟨0, 0⟩) :=
  ⟨rfl, rfl, rfl, rfl⟩

/-- C4 counterexample: on the request 1d6 and 1dx the second clause
fails to parse and the whole request fails, but one random draw has
been consumed for the first clause, contradicting the claim that no
random draws are consumed for any clause. -/
theorem C4_counterexample :
    (run g0 "u" "1d6 and 1dx" ⟨0, 0⟩).1.isOk = false ∧
    (run g0 "u" "1d6 and 1dx" ⟨0, 0⟩).2.nextDraw = 1 ∧
    (run g0 "u" "1d6 and 1dx" ⟨0, 0⟩).2.resolverCalls = 1 :=
  ⟨rfl, rfl, rfl⟩

/-- C4 as amended: whenever any clause of the split request fails to
parse, the whole request fails, so no result string is produced or
posted; clauses preceding the failing one are however evaluated first
and their random draws consumed. -/
theorem C4_no_partial (g : Nat → Int) (u a : String) (s : BotState) (c e : String)
    (hc : c ∈ pySplitS "and" (removeSpaces a)) (hp : parseClause c = .error e) :
    (run g u a s).1.isOk = false := by
  by_cases hlen : (pySplitS "and" (removeSpaces a)).length > 1
  · cases hm : mapRolls g u (pySplitS "and" (removeSpaces a)) s with
    | mk res s₁ =>
      cases res with
      | error e2 =>
        simp [run, if_pos hlen, hm, Except.isOk, Except.toBool]
      | ok l =>
        obtain ⟨-, -, hparse⟩ := mapRolls_ok g u _ s l s₁ hm
        have h2 := hparse c hc
        rw [hp] at h2
        simp [Except.isOk, Except.toBool] at h2
  · have hsingle : pySplitS "and" (removeSpaces a) = [c] := mem_of_short c _ hlen hc
    have hca : c = removeSpaces a := pySplitS_single "and" (removeSpaces a) c hsingle
    simp only [run, if_neg hlen]
    rw [← hca]
    simp [roll_func, hp, Except.isOk, Except.toBool]

/-- Witness for the amended C4 at the request 1d6 and 1dx. -/
theorem C4_witness : (run g0 "u" "1d6 and 1dz" ⟨0, 0⟩).1.isOk = false :=
  C4_no_partial g0 "u" "1d6 and 1dz" ⟨0, 0⟩ "1dz"
    "ValueError: invalid literal for int" (by decide) rfl

/-- C5 counterexample: an upper-case separator does not produce the
same clause decomposition as the lower-case one, contradicting the
claimed case-insensitive splitting. -/
theorem C5_counterexample :
    pySplitS "and" (removeSpaces "1d6 AND 1d4+2") ≠
      pySplitS "and" (removeSpaces "1d6 and 1d4+2") := by
  decide

/-- C5 as amended: splitting is case-sensitive on the literal
lower-case separator; with AND the argument stays one clause, which
then fails to parse, while the lower-case request evaluates. -/
theorem C5_case_sensitive :
    pySplitS "and" (removeSpaces "1d6 and 1d4+2") = ["1d6", "1d4+2"] ∧
    pySplitS "and" (removeSpaces "1d6 AND 1d4+2") = ["1d6AND1d4+2"] ∧
    (run g0 "u" "1d6 AND 1d4+2" ⟨0, 0⟩).1.isOk = false ∧
    (run g0 "u" "1d6 and 1d4+2" ⟨0, 0⟩).1.isOk = true :=
  ⟨rfl, rfl, rfl, rfl⟩

/-- C6 counterexample: the two-clause request 1d6 and 1d6 resolves the
user identity three times, not once. -/
theorem C6_counterexample :
    (run g0 "u" "1d6 and 1d6" ⟨0, 0⟩).2.resolverCalls = 3 ∧ (3 : Nat) ≠ 1 :=
  ⟨rfl, by decide⟩

/-- C6 as amended: on a successful invocation the user-identity
resolver is called once when the argument splits into a single clause,
and n + 1 times when it splits into n clauses with n at least 2: once
inside each per-clause evaluation plus once for the wrapper. -/
theorem C6_resolver_calls (g : Nat → Int) (u a : String) (s : BotState) (msg : String)
    (s' : BotState) (h : run g u a s = (.ok msg, s')) :
    s'.resolverCalls = s.resolverCalls +
      (if (pySplitS "and" (removeSpaces a)).length > 1
        then (pySplitS "and" (removeSpaces a)).length + 1 else 1) := by
  by_cases hlen : (pySplitS "and" (removeSpaces a)).length > 1
  · rw [if_pos hlen]
    cases hm : mapRolls g u (pySplitS "and" (removeSpaces a)) s with
    | mk res s₁ =>
      cases res with
      | error e =>
        simp only [run, if_pos hlen, hm] at h
        exact absurd (congrArg Prod.fst h) (by simp)
      | ok l =>
        simp only [run, if_pos hlen, hm] at h
        simp only [Prod.mk.injEq, Except.ok.injEq] at h
        obtain ⟨-, hstate⟩ := h
        obtain ⟨-, hres, -⟩ := mapRolls_ok g u _ s l s₁ hm
        rw [← hstate]
        show s₁.resolverCalls + 1 =
          s.resolverCalls + ((pySplitS "and" (removeSpaces a)).length + 1)
        omega
  · rw [if_neg hlen]
    simp only [run, if_neg hlen] at h
    exact (roll_func_resolver g u (removeSpaces a) s msg s' h).1

/-- Witness for the amended C6 at the two-clause request 1d6 and 1d6. -/
theorem C6_witness :
    (⟨2, 3⟩ : BotState).resolverCalls = (⟨0, 0⟩ : BotState).resolverCalls +
      (if (pySplitS "and" (removeSpaces "1d6 and 1d6")).length > 1
        then (pySplitS "and" (removeSpaces "1d6 and 1d6")).length + 1 else 1) :=
  C6_resolver_calls g0 "u" "1d6 and 1d6" ⟨0, 0⟩
    ("*u* " ++ "*rolls a 1* _(1d6 = 1 + 0)_ _(min: 1, max: 6)_" ++ "\n\t and " ++
      "*rolls a 1* _(1d6 = 1 + 0)_ _(min: 1, max: 6)_") ⟨2, 3⟩ rfl

/-- C7: evaluating an expression with count at least 1 and sides at
least 1 draws exactly count samples, summing them into roll_result,
advances the randomness source index by exactly count, and leaves the
resolver-call counter untouched. -/
theorem C7_draws (g : Nat → Int) (count : Nat) (sides : Int) (s : BotState)
    (_hcount : 1 ≤ count) (hsides : 1 ≤ sides)
    (_hg : ∀ k, 1 ≤ g k ∧ g k ≤ sides) :
    rollLoop g sides count 0 0 0 s =
      (.ok (rangeSum g s.nextDraw count, (count : Int), (count : Int) * sides),
       ⟨s.nextDraw + count, s.resolverCalls⟩) := by
  have h := rollLoop_ok g sides hsides count 0 0 0 s
  simpa using h

/-- Witness for C7 at the expression 2d6 with every draw equal to 1. -/
theorem C7_witness : rollLoop g0 6 2 0 0 0 ⟨0, 0⟩ = (.ok (2, 2, 12), ⟨2, 0⟩) := by
  have h := C7_draws g0 2 6 ⟨0, 0⟩ (by decide) (by decide)
    (fun _ => ⟨le_refl 1, (by norm_num : (1 : Int) ≤ 6)⟩)
  rw [h]
  rfl

/-- C8: the request 1d6 and 1d4+2 and 2d8-1 splits into exactly those
three clauses and evaluates to three per-clause fragments joined in the
same order; in general a successful compound evaluation returns one
fragment per clause, the head fragment coming from the head clause and
the tail from the remaining clauses in order. -/
theorem C8_compound_order :
    pySplitS "and" (removeSpaces "1d6 and 1d4+2 and 2d8-1") = ["1d6", "1d4+2", "2d8-1"] ∧
    run g0 "u" "1d6 and 1d4+2 and 2d8-1" ⟨0, 0⟩ =
      (.ok ("*u* " ++
        "*rolls a 1* _(1d6 = 1 + 0)_ _(min: 1, max: 6)_" ++ "\n\t and " ++
        "*rolls a 3* _(1d4+2 = 1 + 2)_ _(min: 3, max: 6)_" ++ "\n\t and " ++
        "*rolls a 1* _(2d8-1 = 2 - 1)_ _(min: 1, max: 15)_"), ⟨4, 4⟩) ∧
    (∀ (g : Nat → Int) (u : String) (cs : List String) (s : BotState)
      (l : List String) (s' : BotState),
      mapRolls g u cs s = (.ok l, s') → l.length = cs.length) ∧
    (∀ (g : Nat → Int) (u c : String) (cs : List String) (s : BotState)
      (l : List String) (s' : BotState),
      mapRolls g u (c :: cs) s = (.ok l, s') →
      ∃ msg s₁ rest, roll_func g u c s = (.ok msg, s₁) ∧
        mapRolls g u cs s₁ = (.ok rest, s') ∧ l = dropFirstToken msg :: rest) := by
  refine ⟨rfl, rfl, ?_, ?_⟩
  · intro g u cs s l s' h
    exact (mapRolls_ok g u cs s l s' h).1
  · intro g u c cs s l s' h
    cases h1 : roll_func g u c s with
    | mk res s₁ =>
      cases res with
      | error e =>
        simp only [mapRolls, h1] at h
        exact absurd (congrArg Prod.fst h) (by simp)
      | ok msg =>
        cases h2 : mapRolls g u cs s₁ with
        | mk res2 s₂ =>
          cases res2 with
          | error e =>
            simp only [mapRolls, h1, h2] at h
            exact absurd (congrArg Prod.fst h) (by simp)
          | ok rest =>
            simp only [mapRolls, h1, h2] at h
            simp only [Prod.mk.injEq, Except.ok.injEq] at h
            exact ⟨msg, s₁, rest, rfl, h.2 ▸ h2, h.1.symm⟩

/-- Witness for C8: the three clauses of the example produce exactly
three fragments. -/
theorem C8_witness :
    (["*rolls a 1* _(1d6 = 1 + 0)_ _(min: 1, max: 6)_",
      "*rolls a 3* _(1d4+2 = 1 + 2)_ _(min: 3, max: 6)_",
      "*rolls a 1* _(2d8-1 = 2 - 1)_ _(min: 1, max: 15)_"] : List String).length =
      (["1d6", "1d4+2", "2d8-1"] : List String).length :=
  C8_compound_order.2.2.1 g0 "u" ["1d6", "1d4+2", "2d8-1"] ⟨0, 0⟩
    ["*rolls a 1* _(1d6 = 1 + 0)_ _(min: 1, max: 6)_",
      "*rolls a 3* _(1d4+2 = 1 + 2)_ _(min: 3, max: 6)_",
      "*rolls a 1* _(2d8-1 = 2 - 1)_ _(min: 1, max: 15)_"] ⟨4, 3⟩ rfl

/-- C9: a single-clause argument, one whose space-free form does not
split at the separator, is routed directly to the per-clause evaluator,
and the posted message is exactly the single-roll template instantiated
with the resolved name, total, clause text, raw sum with operator and
modifier, and bounds, with no multi-clause wrapper. -/
theorem C9_single_message (g : Nat → Int) (u a : String) (s s₁ : BotState) (op : String)
    (m n sd rr mn mx : Int)
    (hone : ¬ (pySplitS "and" (removeSpaces a)).length > 1)
    (hp : parseClause (removeSpaces a) = .ok (op, m, n, sd))
    (hr : rollLoop g sd n.toNat 0 0 0 s = (.ok (rr, mn, mx), s₁)) :
    run g u a s =
      (.ok (single_message u (rr + mod_result op m) (removeSpaces a)
        (toString rr ++ " " ++ op ++ " " ++ toString m)
        (mn + mod_result op m) (mx + mod_result op m)),
       ⟨s₁.nextDraw, s₁.resolverCalls + 1⟩) := by
  simp only [run, if_neg hone]
  exact roll_func_ok g u (removeSpaces a) s s₁ op m n sd rr mn mx hp hr

/-- Witness for C9 at the single-clause argument 1d20+4. -/
theorem C9_witness :
    run g0 "u" "1d20+4" ⟨0, 0⟩ =
      (.ok (single_message "u" ((1 : Int) + mod_result "+" 4) (removeSpaces "1d20+4")
        (toString (1 : Int) ++ " " ++ "+" ++ " " ++ toString (4 : Int))
        ((1 : Int) + mod_result "+" 4) ((20 : Int) + mod_result "+" 4)),
       ⟨1, 1⟩) :=
  C9_single_message g0 "u" "1d20+4" ⟨0, 0⟩ ⟨1, 0⟩ "+" 4 1 20 1 1 20 (by decide) rfl rfl

/-- C10: the per-clause fragment of a multi-clause answer is the
single-clause message with exactly its first space-separated token
removed; when the resolved name is a first word followed by a space and
a remainder, that remainder stays glued to the front of the fragment. -/
theorem C10_fragment (g : Nat → Int) (w u' c : String) (s s₁ : BotState) (op : String)
    (m n sd rr mn mx : Int)
    (hw : w.data.contains ' ' = false)
    (hp : parseClause c = .ok (op, m, n, sd))
    (hr : rollLoop g sd n.toNat 0 0 0 s = (.ok (rr, mn, mx), s₁)) :
    roll_func g (w ++ " " ++ u') c s =
      (.ok (single_message (w ++ " " ++ u') (rr + mod_result op m) c
        (toString rr ++ " " ++ op ++ " " ++ toString m)
        (mn + mod_result op m) (mx + mod_result op m)),
       ⟨s₁.nextDraw, s₁.resolverCalls + 1⟩) ∧
    dropFirstToken (single_message (w ++ " " ++ u') (rr + mod_result op m) c
        (toString rr ++ " " ++ op ++ " " ++ toString m)
        (mn + mod_result op m) (mx + mod_result op m)) =
      u' ++ message_tail (rr + mod_result op m) c
        (toString rr ++ " " ++ op ++ " " ++ toString m)
        (mn + mod_result op m) (mx + mod_result op m) :=
  ⟨roll_func_ok g (w ++ " " ++ u') c s s₁ op m n sd rr mn mx hp hr,
    dropFirstToken_single_message w u' c
      (toString rr ++ " " ++ op ++ " " ++ toString m)
      (rr + mod_result op m) (mn + mod_result op m) (mx + mod_result op m) hw⟩

/-- Witness for C10 with the two-word name John Smith and clause 1d6. -/
theorem C10_witness :
    (roll_func g0 ("John" ++ " " ++ "Smith") "1d6" ⟨0, 0⟩ =
      (.ok (single_message ("John" ++ " " ++ "Smith") ((1 : Int) + mod_result "+" 0) "1d6"
        (toString (1 : Int) ++ " " ++ "+" ++ " " ++ toString (0 : Int))
        ((1 : Int) + mod_result "+" 0) ((6 : Int) + mod_result "+" 0)), ⟨1, 1⟩)) ∧
    dropFirstToken (single_message ("John" ++ " " ++ "Smith")
        ((1 : Int) + mod_result "+" 0) "1d6"
        (toString (1 : Int) ++ " " ++ "+" ++ " " ++ toString (0 : Int))
        ((1 : Int) + mod_result "+" 0) ((6 : Int) + mod_result "+" 0)) =
      "Smith" ++ message_tail ((1 : Int) + mod_result "+" 0) "1d6"
        (toString (1 : Int) ++ " " ++ "+" ++ " " ++ toString (0 : Int))
        ((1 : Int) + mod_result "+" 0) ((6 : Int) + mod_result "+" 0) :=
  C10_fragment g0 "John" "Smith" "1d6" ⟨0, 0⟩ ⟨1, 0⟩ "+" 0 1 6 1 1 6 rfl rfl rfl

end DungeonBot
